/-
Verification of the HFT core subsystem: shallow Lean embedding of the
tick-to-trade components (event queue, position tracker, OMS, exchange
simulator, risk gate, market maker, latency-arbitrage engine) translated
from the Python sources under backend/hft/, together with theorems that
settle the frozen claims about them.

Conventions of the embedding:
  * Python float prices / P&L amounts are embedded as exact rationals (ℚ);
    Python int quantities as ℤ (Python ints are unbounded and may be
    negative, so ℤ is the faithful carrier; claims add nonnegativity
    hypotheses where the system only ever produces nonnegative values).
  * Mutable objects become explicit state records; each method becomes a
    function from the old state (and its arguments) to the new state and
    the method's return value.
  * Wall-clock reads (time.monotonic(), time.perf_counter_ns()) become
    explicit `now` parameters.
  * random.* draws become explicit oracle inputs.
  * Observability-only counters (checks_run, latency sums, stats dicts)
    are omitted: no claim mentions them and they feed back into nothing.
-/

import Mathlib

namespace HFT

/-! ## Side -/

inductive Side where
  | BUY
  | SELL
  deriving DecidableEq, Repr

/-! ## Event queue — backend/hft/pipeline/event_queue.py

`LockFreeEventQueue` stores `(timestamp, event)` pairs in a
`collections.deque`; the timestamp member of the pair only feeds the
latency counters, which are omitted, so the buffer is modelled as the
list of events in queue order (head = oldest).  `publish` drops the
oldest entry and bumps `overflow_count` when the buffer is full before
appending. -/

structure EventQueue (α : Type) where
  capacity : Nat
  buffer : List α
  overflow_count : Nat
  enqueue_count : Nat
  dequeue_count : Nat
  deriving Repr

def EventQueue.empty (α : Type) (capacity : Nat) : EventQueue α :=
  { capacity := capacity, buffer := [], overflow_count := 0
    enqueue_count := 0, dequeue_count := 0 }

def EventQueue.publish {α : Type} (q : EventQueue α) (e : α) : EventQueue α :=
  if q.capacity ≤ q.buffer.length then
    { q with buffer := q.buffer.tail ++ [e]
             overflow_count := q.overflow_count + 1
             enqueue_count := q.enqueue_count + 1 }
  else
    { q with buffer := q.buffer ++ [e]
             enqueue_count := q.enqueue_count + 1 }

def EventQueue.consume {α : Type} (q : EventQueue α) : Option α × EventQueue α :=
  match q.buffer with
  | [] => (none, q)
  | e :: rest =>
      (some e, { q with buffer := rest, dequeue_count := q.dequeue_count + 1 })

/-- The `for _ in range(min(max_items, len(buffer)))` loop of
`consume_batch`: the iteration count is fixed before the first
dequeue. -/
def EventQueue.consumeN {α : Type} : Nat → EventQueue α → List α × EventQueue α
  | 0, q => ([], q)
  | n + 1, q =>
      match q.consume with
      | (none, q') => ([], q')
      | (some e, q') =>
          let (rest, q'') := EventQueue.consumeN n q'
          (e :: rest, q'')

def EventQueue.consumeBatch {α : Type} (q : EventQueue α) (maxItems : Nat) :
    List α × EventQueue α :=
  EventQueue.consumeN (min maxItems q.buffer.length) q

/-! ## Position tracker — backend/hft/risk/position_tracker.py -/

structure PTFill where
  side : Side
  fill_price : ℚ
  fill_qty : ℤ
  deriving Repr

structure SymbolPosition where
  net_qty : ℤ
  long_qty : ℤ
  short_qty : ℤ
  avg_long_price : ℚ
  avg_short_price : ℚ
  realized_pnl : ℚ
  unrealized_pnl : ℚ
  total_buys : ℤ
  total_sells : ℤ
  total_buy_value : ℚ
  total_sell_value : ℚ
  deriving Repr

def SymbolPosition.init : SymbolPosition :=
  { net_qty := 0, long_qty := 0, short_qty := 0
    avg_long_price := 0, avg_short_price := 0
    realized_pnl := 0, unrealized_pnl := 0
    total_buys := 0, total_sells := 0
    total_buy_value := 0, total_sell_value := 0 }

/-- `PositionTracker._update_unrealized`, restricted to the one symbol the
fill touched. -/
def SymbolPosition.updateUnrealized (pos : SymbolPosition) (price : ℚ) :
    SymbolPosition :=
  if 0 < pos.net_qty then
    { pos with unrealized_pnl := (price - pos.avg_long_price) * pos.net_qty }
  else if pos.net_qty < 0 then
    { pos with unrealized_pnl := (pos.avg_short_price - price) * |pos.net_qty| }
  else
    { pos with unrealized_pnl := 0 }

/-- `PositionTracker.apply_fill` for the fill's symbol. -/
def SymbolPosition.applyFill (pos : SymbolPosition) (f : PTFill) :
    SymbolPosition :=
  let value : ℚ := f.fill_price * f.fill_qty
  let pos' :=
    match f.side with
    | Side.BUY =>
        let p0 := { pos with total_buys := pos.total_buys + f.fill_qty
                             total_buy_value := pos.total_buy_value + value }
        let p1 :=
          if p0.net_qty < 0 then
            let closed := min f.fill_qty |p0.net_qty|
            let pnl := (p0.avg_short_price - f.fill_price) * closed
            { p0 with realized_pnl := p0.realized_pnl + pnl
                      short_qty := p0.short_qty - closed }
          else p0
        let p2 := { p1 with net_qty := p1.net_qty + f.fill_qty }
        if 0 < p2.net_qty then
          let long' := p2.net_qty
          let total_cost := p2.avg_long_price * (long' - f.fill_qty) + value
          { p2 with long_qty := long'
                    avg_long_price := if 0 < long' then total_cost / long' else 0 }
        else p2
    | Side.SELL =>
        let p0 := { pos with total_sells := pos.total_sells + f.fill_qty
                             total_sell_value := pos.total_sell_value + value }
        let p1 :=
          if 0 < p0.net_qty then
            let closed := min f.fill_qty p0.net_qty
            let pnl := (f.fill_price - p0.avg_long_price) * closed
            { p0 with realized_pnl := p0.realized_pnl + pnl
                      long_qty := p0.long_qty - closed }
          else p0
        let p2 := { p1 with net_qty := p1.net_qty - f.fill_qty }
        if p2.net_qty < 0 then
          let short' := |p2.net_qty|
          let total_cost := p2.avg_short_price * (short' - f.fill_qty) + value
          { p2 with short_qty := short'
                    avg_short_price := if 0 < short' then total_cost / short' else 0 }
        else p2
  pos'.updateUnrealized f.fill_price

def SymbolPosition.applyFills (fills : List PTFill) : SymbolPosition :=
  fills.foldl SymbolPosition.applyFill SymbolPosition.init

/-! ## Python rounding

`round(x, n)` in Python rounds half to even (banker's rounding). -/

/-- Round half to even, Python's `round` on a number with no `ndigits`. -/
def roundHalfEven (x : ℚ) : ℤ :=
  let f := ⌊x⌋
  let r := x - f
  if r < 1/2 then f
  else if 1/2 < r then f + 1
  else if f % 2 = 0 then f else f + 1

/-- Python `round(x, n)` for `n ≥ 0`. -/
def pyRound (n : ℕ) (x : ℚ) : ℚ :=
  (roundHalfEven (x * 10 ^ n) : ℚ) / 10 ^ n

/-- Python `int(x)`: truncation toward zero. -/
def intTrunc (x : ℚ) : ℤ :=
  if 0 ≤ x then ⌊x⌋ else ⌈x⌉

/-! ## Order status and type — backend/hft/pipeline/event_types.py -/

inductive OrderStatus where
  | PENDING
  | SENT
  | ACKED
  | PARTIALLY_FILLED
  | FILLED
  | CANCELLED
  | REJECTED
  deriving DecidableEq, Repr

inductive OrderType where
  | LIMIT
  | MARKET
  | IOC
  | FOK
  | POST_ONLY
  deriving DecidableEq, Repr

/-! ## OMS — backend/hft/execution/oms.py

An OMS entry is one order together with its fill list
(`_orders[order_id]` and `_fills[order_id]`).  The bounded
`_order_history` log and the stats counters are observability only and
omitted. -/

structure OmsFill where
  fill_price : ℚ
  fill_qty : ℤ
  is_final : Bool
  deriving Repr

structure OmsOrder where
  quantity : ℤ
  filled_qty : ℤ
  remaining_qty : ℤ
  avg_fill_price : ℚ
  status : OrderStatus
  deriving Repr

/-- `create_order`: a fresh PENDING order with `remaining_qty = quantity`. -/
def OmsOrder.create (quantity : ℤ) : OmsOrder :=
  { quantity := quantity, filled_qty := 0, remaining_qty := quantity
    avg_fill_price := 0, status := OrderStatus.PENDING }

/-- `update_status` (the per-status histogram is omitted). -/
def OmsOrder.updateStatus (o : OmsOrder) (st : OrderStatus) : OmsOrder :=
  { o with status := st }

structure OmsEntry where
  order : OmsOrder
  fills : List OmsFill
  deriving Repr

def OmsEntry.create (quantity : ℤ) : OmsEntry :=
  { order := OmsOrder.create quantity, fills := [] }

/-- `_calc_avg_price`. -/
def calcAvgPrice (fills : List OmsFill) : ℚ :=
  let total_qty : ℤ := (fills.map OmsFill.fill_qty).sum
  let total_value : ℚ := (fills.map (fun f => f.fill_price * (f.fill_qty : ℚ))).sum
  if 0 < total_qty then total_value / total_qty else 0

/-- `OrderManagementSystem.apply_fill` on the fill's order. -/
def OmsEntry.applyFill (e : OmsEntry) (f : OmsFill) : OmsEntry :=
  let fills' := e.fills ++ [f]
  let filled' := e.order.filled_qty + f.fill_qty
  let order' :=
    { e.order with
        filled_qty := filled'
        remaining_qty := max 0 (e.order.quantity - filled')
        avg_fill_price := calcAvgPrice fills' }
  let order'' :=
    if f.is_final then order'.updateStatus OrderStatus.FILLED
    else order'.updateStatus OrderStatus.PARTIALLY_FILLED
  { order := order'', fills := fills' }

def OmsEntry.applyFills (quantity : ℤ) (fills : List OmsFill) : OmsEntry :=
  fills.foldl OmsEntry.applyFill (OmsEntry.create quantity)

/-! ## Exchange simulator — backend/hft/execution/exchange_gateway.py

`simulate_fills` draws `random.uniform` fill ratios and slippages and a
`random.random() < 0.3` early-stop coin each loop round; those draws are
passed in as an explicit oracle list, one entry per round (the Python
stream is unbounded; when the oracle runs out the loop is cut short,
which only ever removes trailing fills). -/

structure VenueFees where
  maker_rebate_per_share : ℚ
  taker_fee_per_share : ℚ
  deriving Repr

structure FillStep where
  ratio : ℚ
  slippage : ℚ
  stop : Bool
  deriving Repr

structure SimFill where
  fill_price : ℚ
  fill_qty : ℤ
  liquidity_maker : Bool
  fee : ℚ
  remaining_qty : ℤ
  is_final : Bool
  deriving Repr

/-- `fill_qty = min(max(1, int(remaining * fill_ratio)), remaining)` of
one loop round. -/
def simQty (step : FillStep) (remaining : ℤ) : ℤ :=
  min (max 1 (intTrunc ((remaining : ℚ) * step.ratio))) remaining

/-- The FillEvent one loop round of `simulate_fills` constructs. -/
def simFillOf (venue : VenueFees) (otype : OrderType) (price : ℚ)
    (step : FillStep) (remaining fq : ℤ) : SimFill :=
  { fill_price := pyRound 2 (price * (1 + step.slippage))
    fill_qty := fq
    liquidity_maker :=
      decide (otype = OrderType.LIMIT ∨ otype = OrderType.POST_ONLY)
    fee := pyRound 4
      (if otype = OrderType.LIMIT ∨ otype = OrderType.POST_ONLY then
        venue.maker_rebate_per_share * fq
      else venue.taker_fee_per_share * fq)
    remaining_qty := remaining - fq
    is_final := decide (remaining - fq = 0) }

/-- The `while remaining > 0` loop of `simulate_fills`. -/
def simulateLoop (venue : VenueFees) (otype : OrderType) (price : ℚ) :
    List FillStep → ℤ → List SimFill
  | [], _ => []
  | step :: rest, remaining =>
      if remaining ≤ 0 then []
      else
        let fq := simQty step remaining
        let fill := simFillOf venue otype price step remaining fq
        if 0 < remaining - fq ∧ step.stop then [fill]
        else fill :: simulateLoop venue otype price rest (remaining - fq)

/-- `ExchangeSimulator.simulate_fills`: no fills unless the order is
ACKED; otherwise run the fill loop starting from `order.quantity`. -/
def simulateFills (venue : VenueFees) (otype : OrderType)
    (status : OrderStatus) (price : ℚ) (quantity : ℤ)
    (oracle : List FillStep) : List SimFill :=
  if status ≠ OrderStatus.ACKED then []
  else simulateLoop venue otype price oracle quantity

def SimFill.totalQty (fills : List SimFill) : ℤ :=
  (fills.map SimFill.fill_qty).sum

/-! ## Association-list helpers

Python dicts keep insertion order; updating an existing key keeps its
slot.  `assocSet` mirrors that, which matters wherever the code iterates
over `dict.items()` with an order-sensitive fold. -/

def assocSet {β : Type} : List (String × β) → String → β → List (String × β)
  | [], k, v => [(k, v)]
  | (a, b) :: t, k, v =>
      if a = k then (k, v) :: t else (a, b) :: assocSet t k v

def assocFind {β : Type} : List (String × β) → String → Option β
  | [], _ => none
  | (a, b) :: t, k => if a = k then some b else assocFind t k

/-! ## Risk gate — backend/hft/risk/risk_engine.py

State of `HFTRiskEngine`.  `_recent_order_ids` is a Python set used only
for membership and insertion; it is modelled as a duplicate-free list.
`_order_timestamps` is a deque with `maxlen = 2·max_orders_per_second`
and `_notional_window` a deque with `maxlen = 10000`; appending to a
full deque silently drops the leftmost entry.  `time.monotonic()` reads
become the explicit `now` argument (seconds), and the position
tracker read `get_position_qty(order.symbol)` the `posQty` argument.
The stats counters and latency measurements are omitted. -/

structure RiskConfig where
  max_order_value : ℚ
  max_daily_loss : ℚ
  max_orders_per_second : ℕ
  max_notional_per_second : ℚ
  fat_finger_threshold_pct : ℚ
  position_limit_per_symbol : ℤ
  deriving Repr

/-- The dataclass defaults of `RiskConfig` (config.py), restricted to the
fields the checks read. -/
def RiskConfig.base : RiskConfig :=
  { max_order_value := 500000, max_daily_loss := 100000
    max_orders_per_second := 5000, max_notional_per_second := 10000000
    fat_finger_threshold_pct := 5, position_limit_per_symbol := 50000 }

structure RiskOrder where
  order_id : String
  symbol : String
  side : Side
  price : ℚ
  quantity : ℤ
  deriving Repr

structure RiskState where
  order_timestamps : List ℚ
  notional_window : List (ℚ × ℚ)
  recent_order_ids : List String
  daily_pnl : ℚ
  circuit_breaker_active : Bool
  last_prices : List (String × ℚ)
  deriving Repr

def RiskState.init : RiskState :=
  { order_timestamps := [], notional_window := [], recent_order_ids := []
    daily_pnl := 0, circuit_breaker_active := false, last_prices := [] }

structure RiskDecision where
  approved : Bool
  reason : String
  deriving DecidableEq, Repr

/-- Append to a deque with a maxlen: a full deque drops its oldest entry. -/
def appendMax {α : Type} (maxlen : ℕ) (l : List α) (a : α) : List α :=
  if maxlen ≤ l.length then l.tail ++ [a] else l ++ [a]

/-- `_check_fat_finger`: first-seen price seeds the reference and passes;
afterwards a deviation above the threshold fails (without moving the
reference), otherwise the reference moves to the order price. -/
def checkFatFinger (cfg : RiskConfig) (lastPrices : List (String × ℚ))
    (o : RiskOrder) : Bool × List (String × ℚ) :=
  match assocFind lastPrices o.symbol with
  | none => (true, assocSet lastPrices o.symbol o.price)
  | some lp =>
      if cfg.fat_finger_threshold_pct < |o.price - lp| / lp * 100 then
        (false, lastPrices)
      else (true, assocSet lastPrices o.symbol o.price)

/-- `_check_position_limit`. -/
def checkPositionLimit (cfg : RiskConfig) (posQty : ℤ) (o : RiskOrder) : Bool :=
  let projected :=
    match o.side with
    | Side.BUY => posQty + o.quantity
    | Side.SELL => posQty - o.quantity
  |projected| ≤ cfg.position_limit_per_symbol

/-- `_check_order_rate`: evict timestamps older than 1 s, then compare the
window length against the per-second cap. -/
def checkOrderRate (cfg : RiskConfig) (now : ℚ) (ts : List ℚ) :
    Bool × List ℚ :=
  let ts' := ts.dropWhile (fun t => t < now - 1)
  (ts'.length < cfg.max_orders_per_second, ts')

/-- `_check_notional_limit`: the per-order cap is tested before the
window is evicted (an oversized order returns early and leaves the
window untouched). -/
def checkNotionalLimit (cfg : RiskConfig) (now : ℚ) (window : List (ℚ × ℚ))
    (o : RiskOrder) : Bool × List (ℚ × ℚ) :=
  let notional := o.price * o.quantity
  if cfg.max_order_value < notional then (false, window)
  else
    let window' := window.dropWhile (fun p => p.1 < now - 1)
    ((window'.map Prod.snd).sum + notional ≤ cfg.max_notional_per_second, window')

/-- `_check_daily_loss`: latches the breaker only when the loss cap is
strictly exceeded on the negative side. -/
def checkDailyLoss (cfg : RiskConfig) (pnl : ℚ) (breaker : Bool) :
    Bool × Bool :=
  if cfg.max_daily_loss < |pnl| then
    if pnl < 0 then (false, true) else (true, breaker)
  else (true, breaker)

/-- `_check_duplicate`. -/
def checkDuplicate (recent : List String) (o : RiskOrder) : Bool :=
  decide (o.order_id ∉ recent)

/-- The failure-reason list `failures` accumulated by `check_order` when
the circuit breaker is not already active. -/
def checkOrderFailures (cfg : RiskConfig) (posQty : ℤ) (now : ℚ)
    (s : RiskState) (o : RiskOrder) : List String :=
  (if (checkFatFinger cfg s.last_prices o).1 then [] else ["FAT_FINGER"]) ++
  (if checkPositionLimit cfg posQty o then [] else ["POSITION_LIMIT"]) ++
  (if (checkOrderRate cfg now s.order_timestamps).1 then []
   else ["ORDER_RATE_LIMIT"]) ++
  (if (checkNotionalLimit cfg now s.notional_window o).1 then []
   else ["NOTIONAL_LIMIT"]) ++
  (if (checkDailyLoss cfg s.daily_pnl s.circuit_breaker_active).1 then []
   else ["DAILY_LOSS_LIMIT"]) ++
  (if checkDuplicate s.recent_order_ids o then [] else ["DUPLICATE_ORDER"])

/-- `HFTRiskEngine.check_order`.  An active breaker rejects immediately
and runs no check; otherwise all seven checks run (no short circuit),
their state updates all land (the checks touch disjoint state), and
the order is approved only when no check failed.  Approval records the
order id, the timestamp, and the notional. -/
def checkOrder (cfg : RiskConfig) (posQty : ℤ) (now : ℚ)
    (s : RiskState) (o : RiskOrder) : RiskDecision × RiskState :=
  if s.circuit_breaker_active then
    ({ approved := false, reason := "CIRCUIT_BREAKER_ACTIVE" }, s)
  else
    let lastPrices' := (checkFatFinger cfg s.last_prices o).2
    let ts' := (checkOrderRate cfg now s.order_timestamps).2
    let nw' := (checkNotionalLimit cfg now s.notional_window o).2
    let breaker' := (checkDailyLoss cfg s.daily_pnl s.circuit_breaker_active).2
    let failures := checkOrderFailures cfg posQty now s o
    let s' : RiskState :=
      { s with last_prices := lastPrices', order_timestamps := ts'
               notional_window := nw', circuit_breaker_active := breaker' }
    if failures.isEmpty then
      let s'' : RiskState :=
        { s' with
            recent_order_ids :=
              if o.order_id ∈ s'.recent_order_ids then s'.recent_order_ids
              else o.order_id :: s'.recent_order_ids
            order_timestamps :=
              appendMax (2 * cfg.max_orders_per_second) ts' now
            notional_window :=
              appendMax 10000 nw' (now, o.price * o.quantity) }
      ({ approved := true, reason := "ALL_CHECKS_PASSED" }, s'')
    else
      ({ approved := false, reason := String.intercalate "; " failures }, s')

/-- `update_daily_pnl`. -/
def updateDailyPnl (s : RiskState) (delta : ℚ) : RiskState :=
  { s with daily_pnl := s.daily_pnl + delta }

/-- `reset_daily`: zeroes the daily P&L, clears the breaker latch and the
recent-order-id set; the rate and notional windows and the fat-finger
references are kept. -/
def resetDaily (s : RiskState) : RiskState :=
  { s with daily_pnl := 0, circuit_breaker_active := false
           recent_order_ids := [] }

/-- One externally driven risk-engine operation, for stating invariants
over arbitrary call sequences. -/
inductive RiskOp where
  | check (posQty : ℤ) (now : ℚ) (o : RiskOrder)
  | updatePnl (delta : ℚ)

def applyRiskOp (cfg : RiskConfig) (s : RiskState) : RiskOp → RiskState
  | RiskOp.check posQty now o => (checkOrder cfg posQty now s o).2
  | RiskOp.updatePnl delta => updateDailyPnl s delta

def applyRiskOps (cfg : RiskConfig) (s : RiskState) (ops : List RiskOp) :
    RiskState :=
  ops.foldl (applyRiskOp cfg) s

/-! ## Market-making engine — backend/hft/strategy/market_maker.py

`generate_quotes` reads the order book only through `book.mid_price` and
`book.spread_bps`, so those two reads are passed as arguments; the
inventory comes from the engine's own `MMPosition.net_position`. -/

structure MMConfig where
  default_spread_bps : ℚ
  quote_size_shares : ℤ
  max_position_shares : ℤ
  inventory_skew_factor : ℚ
  deriving Repr

/-- The dataclass defaults of `StrategyConfig` (config.py), restricted to
the fields `generate_quotes` reads. -/
def MMConfig.base : MMConfig :=
  { default_spread_bps := 2, quote_size_shares := 100
    max_position_shares := 10000, inventory_skew_factor := 3/10 }

structure MMSignal where
  side : Side
  target_price : ℚ
  target_qty : ℤ
  signal_type : String
  deriving DecidableEq, Repr

/-- The bid price `generate_quotes` computes before the crossed-quote
repair. -/
def mmBidPrice (cfg : MMConfig) (mid spreadBps : ℚ) (netPos : ℤ) : ℚ :=
  let base_spread_pct := cfg.default_spread_bps / 10000
  let vol_adjustment := min (spreadBps / 100) (2/1000)
  let spread_pct := base_spread_pct + vol_adjustment
  let inventory_skew :=
    if netPos ≠ 0 then
      (netPos : ℚ) / (cfg.max_position_shares : ℚ)
        * cfg.inventory_skew_factor * spread_pct
    else 0
  let half_spread := mid * spread_pct / 2
  pyRound 2 (mid - half_spread + inventory_skew)

/-- The ask price before the crossed-quote repair. -/
def mmAskPriceRaw (cfg : MMConfig) (mid spreadBps : ℚ) (netPos : ℤ) : ℚ :=
  let base_spread_pct := cfg.default_spread_bps / 10000
  let vol_adjustment := min (spreadBps / 100) (2/1000)
  let spread_pct := base_spread_pct + vol_adjustment
  let inventory_skew :=
    if netPos ≠ 0 then
      (netPos : ℚ) / (cfg.max_position_shares : ℚ)
        * cfg.inventory_skew_factor * spread_pct
    else 0
  let half_spread := mid * spread_pct / 2
  pyRound 2 (mid + half_spread + inventory_skew)

/-- The ask price after the crossed-quote repair: a crossed or locked
quote is widened one tick above the bid. -/
def mmAskPrice (cfg : MMConfig) (mid spreadBps : ℚ) (netPos : ℤ) : ℚ :=
  let bid := mmBidPrice cfg mid spreadBps netPos
  let ask := mmAskPriceRaw cfg mid spreadBps netPos
  if ask ≤ bid then pyRound 2 (bid + 1/100) else ask

/-- The quoted size: halved when inventory exceeds 80% of the cap (the
code halves the same way on both signs). -/
def mmQuoteQty (cfg : MMConfig) (netPos : ℤ) : ℤ :=
  if (cfg.max_position_shares : ℚ) * (8/10) < (|netPos| : ℚ) then
    Int.fdiv cfg.quote_size_shares 2
  else cfg.quote_size_shares

/-- `MarketMakingEngine.generate_quotes`: no quotes without a positive
mid, else exactly a BUY-at-bid and a SELL-at-ask signal. -/
def generateQuotes (cfg : MMConfig) (mid spreadBps : ℚ) (netPos : ℤ) :
    List MMSignal :=
  if mid ≤ 0 then []
  else
    let bid := mmBidPrice cfg mid spreadBps netPos
    let ask := mmAskPrice cfg mid spreadBps netPos
    let qty := mmQuoteQty cfg netPos
    [ { side := Side.BUY, target_price := bid, target_qty := qty
        signal_type := "market_make_bid" }
    , { side := Side.SELL, target_price := ask, target_qty := qty
        signal_type := "market_make_ask" } ]

/-! ## Latency-arbitrage engine — backend/hft/strategy/arbitrage.py

`float("inf")` seeding the best-ask scan is modelled as `Option ℚ` with
`none` above every rational; the Python truthiness test
`best_bid_venue and best_ask_venue` is the `Option.isSome` test (venue
names in this system are nonempty strings).  The bounded recent-signal
log and the stats are omitted. -/

structure VenueQuote where
  venue : String
  bid : ℚ
  ask : ℚ
  bid_size : ℤ
  ask_size : ℤ
  timestamp_ns : ℤ
  stale : Bool
  deriving Repr

structure ArbEvent where
  symbol : String
  venue : String
  bid_price : ℚ
  ask_price : ℚ
  bid_size : ℤ
  ask_size : ℤ
  timestamp_ns : ℤ
  deriving Repr

structure ArbConfig where
  arb_min_profit_bps : ℚ
  arb_staleness_threshold_us : ℤ
  deriving Repr

/-- The dataclass defaults of `StrategyConfig` (config.py), restricted to
the fields the arbitrage engine reads. -/
def ArbConfig.base : ArbConfig :=
  { arb_min_profit_bps := 3/10, arb_staleness_threshold_us := 500 }

structure ArbState where
  venue_quotes : List (String × List (String × VenueQuote))
  deriving Repr

def ArbState.init : ArbState := { venue_quotes := [] }

structure ArbSignal where
  buy_venue : String
  buy_price : ℚ
  sell_venue : String
  sell_price : ℚ
  quantity : ℤ
  deriving DecidableEq, Repr

/-- `_mark_stale`: every entry of the symbol's venue table is marked
stale when its age relative to the incoming event's timestamp exceeds
`arb_staleness_threshold_us · 1000` ns. -/
def markStale (cfg : ArbConfig) (currentNs : ℤ)
    (quotes : List (String × VenueQuote)) : List (String × VenueQuote) :=
  let threshold := cfg.arb_staleness_threshold_us * 1000
  quotes.map fun vq =>
    (vq.1, { vq.2 with stale := decide (threshold < currentNs - vq.2.timestamp_ns) })

structure ScanAcc where
  best_bid_venue : Option String
  best_bid : ℚ
  best_bid_size : ℤ
  best_ask_venue : Option String
  best_ask : Option ℚ
  best_ask_size : ℤ
  deriving Repr

def ScanAcc.init : ScanAcc :=
  { best_bid_venue := none, best_bid := 0, best_bid_size := 0
    best_ask_venue := none, best_ask := none, best_ask_size := 0 }

/-- One round of the best-bid / best-ask scan in `_scan_for_arb`. -/
def scanStep (acc : ScanAcc) (vq : String × VenueQuote) : ScanAcc :=
  let acc1 :=
    if acc.best_bid < vq.2.bid then
      { acc with best_bid := vq.2.bid, best_bid_venue := some vq.1
                 best_bid_size := vq.2.bid_size }
    else acc
  let askBelow :=
    match acc1.best_ask with
    | none => true
    | some a => decide (vq.2.ask < a)
  if askBelow then
    { acc1 with best_ask := some vq.2.ask, best_ask_venue := some vq.1
                best_ask_size := vq.2.ask_size }
  else acc1

/-- `_scan_for_arb` over a symbol's venue table (which the caller has
already updated and stale-marked).  Note: the scan iterates over every
stored quote; the `stale` flag is never consulted. -/
def scanForArb (cfg : ArbConfig) (quotes : List (String × VenueQuote)) :
    Option ArbSignal :=
  if quotes.length < 2 then none
  else
    let acc := quotes.foldl scanStep ScanAcc.init
    match acc.best_bid_venue, acc.best_ask_venue, acc.best_ask with
    | some bidVenue, some askVenue, some bestAsk =>
        if bidVenue ≠ askVenue ∧ bestAsk < acc.best_bid then
          let mid := (acc.best_bid + bestAsk) / 2
          let spread_bps := (acc.best_bid - bestAsk) / mid * 10000
          if cfg.arb_min_profit_bps ≤ spread_bps then
            some { buy_venue := askVenue, buy_price := bestAsk
                   sell_venue := bidVenue, sell_price := acc.best_bid
                   quantity := min acc.best_bid_size (min acc.best_ask_size 1000) }
          else none
        else none
    | _, _, _ => none

/-- `LatencyArbitrageEngine.evaluate`: store the event's quote, re-mark
staleness against the event's timestamp, then scan the symbol's table. -/
def arbEvaluate (cfg : ArbConfig) (s : ArbState) (ev : ArbEvent) :
    Option ArbSignal × ArbState :=
  let quotes0 := (assocFind s.venue_quotes ev.symbol).getD []
  let quote : VenueQuote :=
    { venue := ev.venue, bid := ev.bid_price, ask := ev.ask_price
      bid_size := ev.bid_size, ask_size := ev.ask_size
      timestamp_ns := ev.timestamp_ns, stale := false }
  let quotes1 := assocSet quotes0 ev.venue quote
  let quotes2 := markStale cfg ev.timestamp_ns quotes1
  (scanForArb cfg quotes2,
   { venue_quotes := assocSet s.venue_quotes ev.symbol quotes2 })

def arbEvaluateAll (cfg : ArbConfig) (events : List ArbEvent) :
    Option ArbSignal × ArbState :=
  events.foldl (fun acc ev => arbEvaluate cfg acc.2 ev) (none, ArbState.init)

/-- Modelled from the spec's words for comparison (claim C1): the firing
condition with stale quotes excluded — the scan restricted to the
non-stale entries of the symbol's table. -/
def claimArbFires (cfg : ArbConfig) (quotes : List (String × VenueQuote)) :
    Bool :=
  (scanForArb cfg (quotes.filter fun vq => !vq.2.stale)).isSome

/-! ## Shared concrete scenarios -/

/-- The risk configuration of the breaker scenarios: defaults with
`max_daily_loss = 100`. -/
def cfgLoss100 : RiskConfig := { RiskConfig.base with max_daily_loss := 100 }

/-- A plain order that passes every check of a fresh engine. -/
def scenarioOrder : RiskOrder :=
  { order_id := "ORD-1", symbol := "ACME", side := Side.BUY
    price := 100, quantity := 10 }

/-- Venue V1 quotes 101/102 at t = 0 ns. -/
def arbEv1 : ArbEvent :=
  { symbol := "ACME", venue := "V1", bid_price := 101, ask_price := 102
    bid_size := 10, ask_size := 10, timestamp_ns := 0 }

/-- Venue V2 quotes 99/100 at t = 1 s, far past the 500 µs staleness
threshold, so V1's stored quote is marked stale on this event. -/
def arbEv2 : ArbEvent :=
  { symbol := "ACME", venue := "V2", bid_price := 99, ask_price := 100
    bid_size := 10, ask_size := 10, timestamp_ns := 1000000000 }

/-! ## Queue lemmas and claim C4 -/

theorem consumeN_fst {α : Type} :
    ∀ (m : Nat) (q : EventQueue α), m ≤ q.buffer.length →
      (EventQueue.consumeN m q).1 = q.buffer.take m
  | 0, _, _ => by simp [EventQueue.consumeN]
  | m + 1, ⟨cap, [], oc, ec, dc⟩, h => by simp at h
  | m + 1, ⟨cap, e :: rest, oc, ec, dc⟩, h => by
      have ih := consumeN_fst m ⟨cap, rest, oc, ec, dc + 1⟩
        (by simpa using Nat.succ_le_succ_iff.mp (by simpa using h))
      simp only [EventQueue.consumeN, EventQueue.consume] at ih ⊢
      simpa using ih

/-- C4: with capacity 4, publishing E1..E5 and consuming 4 returns
E2, E3, E4, E5 in order with overflow_count = 1; in general, a publish
on a full queue increments overflow_count and drops the oldest entry
before inserting, and consume_batch dequeues a FIFO prefix of the
buffer. -/
theorem queue_drop_oldest_fifo :
    (((([1, 2, 3, 4, 5] : List Nat).foldl EventQueue.publish
          (EventQueue.empty Nat 4)).consumeBatch 4).1 = [2, 3, 4, 5]
      ∧ (([1, 2, 3, 4, 5] : List Nat).foldl EventQueue.publish
          (EventQueue.empty Nat 4)).overflow_count = 1)
    ∧ (∀ (α : Type) (q : EventQueue α) (e : α),
        q.buffer.length = q.capacity →
          (q.publish e).overflow_count = q.overflow_count + 1 ∧
          (q.publish e).buffer = q.buffer.tail ++ [e])
    ∧ (∀ (α : Type) (q : EventQueue α) (n : Nat),
        (q.consumeBatch n).1 = q.buffer.take n) := by
  refine ⟨⟨by decide, by decide⟩, ?_, ?_⟩
  · intro α q e h
    have hc : q.capacity ≤ q.buffer.length := h.ge
    constructor <;> simp [EventQueue.publish, hc]
  · intro α q n
    rcases le_total n q.buffer.length with h | h
    · rw [EventQueue.consumeBatch, min_eq_left h, consumeN_fst n q h]
    · rw [EventQueue.consumeBatch, min_eq_right h,
        consumeN_fst q.buffer.length q le_rfl, List.take_length,
        List.take_of_length_le h]

/-- Witness for C4's hypothesis-bearing conjuncts, at a concrete full
queue of capacity 1. -/
theorem queue_drop_oldest_fifo_witness :
    (⟨1, [5], 0, 1, 0⟩ : EventQueue Nat).buffer.length
        = (⟨1, [5], 0, 1, 0⟩ : EventQueue Nat).capacity
    ∧ ((⟨1, [5], 0, 1, 0⟩ : EventQueue Nat).publish 9).overflow_count = 0 + 1
    ∧ ((⟨1, [5], 0, 1, 0⟩ : EventQueue Nat).publish 9).buffer = [5].tail ++ [9] :=
  ⟨by decide,
   (queue_drop_oldest_fifo.2.1 Nat ⟨1, [5], 0, 1, 0⟩ 9 (by decide)).1,
   (queue_drop_oldest_fifo.2.1 Nat ⟨1, [5], 0, 1, 0⟩ 9 (by decide)).2⟩

/-! ## Claim C5 -/

/-- C5 (code bug): opening a 10-share short at 100 and then buying 15 at
100 closes the short with zero realized P&L as the claim says, but
leaves `avg_long_price = 300` on the 5 remaining long shares instead of
the volume-weighted cost 100 of the long side: the flip branch of
`apply_fill` weighs the stale long average by `net_qty − fill_qty < 0`
and divides the whole 15-share fill value by the 5-share remainder. -/
theorem apply_fill_flip_avg_price_bug :
    (SymbolPosition.applyFills
        [⟨Side.SELL, 100, 10⟩, ⟨Side.BUY, 100, 15⟩]).avg_long_price = 300
    ∧ (SymbolPosition.applyFills
        [⟨Side.SELL, 100, 10⟩, ⟨Side.BUY, 100, 15⟩]).avg_long_price ≠ 100
    ∧ (SymbolPosition.applyFills [⟨Side.SELL, 100, 10⟩]).avg_short_price = 100
    ∧ (SymbolPosition.applyFills
        [⟨Side.SELL, 100, 10⟩, ⟨Side.BUY, 100, 15⟩]).realized_pnl = 0
    ∧ (SymbolPosition.applyFills
        [⟨Side.SELL, 100, 10⟩, ⟨Side.BUY, 100, 15⟩]).net_qty = 5 := by
  norm_num [SymbolPosition.applyFills, SymbolPosition.applyFill,
    SymbolPosition.init, SymbolPosition.updateUnrealized, List.foldl]

/-! ## Claim C1 -/

/-- C1 (code bug): after V1 quotes 101/102 at t = 0 and V2 quotes 99/100
at t = 1 s, V1's quote is marked stale (age 1 s > 500 µs) and only one
venue is non-stale, so by the claim no signal may fire — yet `evaluate`
emits a signal built on the stale V1 bid, because `_scan_for_arb` never
consults the `stale` flag that `_mark_stale` computes. -/
theorem arb_stale_quote_divergence :
    ((arbEvaluateAll ArbConfig.base [arbEv1, arbEv2]).1).isSome = true
    ∧ claimArbFires ArbConfig.base
        ((assocFind (arbEvaluateAll ArbConfig.base [arbEv1, arbEv2]).2.venue_quotes
          "ACME").getD []) = false
    ∧ (((assocFind (arbEvaluateAll ArbConfig.base [arbEv1, arbEv2]).2.venue_quotes
          "ACME").getD []).filter (fun vq => !vq.2.stale)).length = 1
    ∧ ((assocFind (arbEvaluateAll ArbConfig.base [arbEv1, arbEv2]).2.venue_quotes
          "ACME").getD []).length = 2 := by
  norm_num [arbEvaluateAll, arbEvaluate, markStale, scanForArb, scanStep,
    ScanAcc.init, assocFind, assocSet, ArbConfig.base, ArbState.init,
    arbEv1, arbEv2, List.foldl, claimArbFires, List.filter]
  all_goals decide

/-! ## Claim C2: counterexample -/

/-- The engine state right after `update_daily_pnl(-101)` on a fresh
engine with `max_daily_loss = 100`. -/
def lossState : RiskState := updateDailyPnl RiskState.init (-101)

/-- C2 counterexample: the first `check_order` after the −101 P&L update
is REJECTED, but its reason is `DAILY_LOSS_LIMIT`, not the claimed
`CIRCUIT_BREAKER_ACTIVE` (the breaker only latches during that call and
rejects with `CIRCUIT_BREAKER_ACTIVE` from the following call on). -/
theorem circuit_breaker_reason_cex :
    (checkOrder cfgLoss100 0 0 lossState scenarioOrder).1.approved = false
    ∧ (checkOrder cfgLoss100 0 0 lossState scenarioOrder).1.reason
        = "DAILY_LOSS_LIMIT"
    ∧ (checkOrder cfgLoss100 0 0 lossState scenarioOrder).1.reason
        ≠ "CIRCUIT_BREAKER_ACTIVE" := by
  norm_num [checkOrder, checkOrderFailures, checkFatFinger, checkPositionLimit,
    checkOrderRate, checkNotionalLimit, checkDailyLoss, checkDuplicate,
    assocFind, assocSet, appendMax, updateDailyPnl, RiskState.init,
    RiskConfig.base, cfgLoss100, scenarioOrder, lossState, List.dropWhile]
  all_goals decide

/-! ## Claim C8: counterexample -/

/-- C8 counterexample: at the exact boundary `daily_pnl = −max_daily_loss`
(−100 against a cap of 100) a check approves the order and the breaker
flag stays false: `_check_daily_loss` requires `abs(daily_pnl) >
max_daily_loss` strictly. -/
theorem breaker_boundary_cex :
    (updateDailyPnl RiskState.init (-100)).daily_pnl
        = -cfgLoss100.max_daily_loss
    ∧ (checkOrder cfgLoss100 0 0 (updateDailyPnl RiskState.init (-100))
        scenarioOrder).1.approved = true
    ∧ (checkOrder cfgLoss100 0 0 (updateDailyPnl RiskState.init (-100))
        scenarioOrder).2.circuit_breaker_active = false := by
  norm_num [checkOrder, checkOrderFailures, checkFatFinger, checkPositionLimit,
    checkOrderRate, checkNotionalLimit, checkDailyLoss, checkDuplicate,
    assocFind, assocSet, appendMax, updateDailyPnl, RiskState.init,
    RiskConfig.base, cfgLoss100, scenarioOrder, List.dropWhile]

/-! ## Claim C10: counterexample -/

/-- The engine state after one approved order at t = 0: the rate window
holds that order's timestamp. -/
def approvedOnceState : RiskState :=
  (checkOrder cfgLoss100 0 0 RiskState.init scenarioOrder).2

/-- C10 counterexample: re-submitting the same order id at t = 2 s is
REJECTED (duplicate), yet the call mutates the rate window: the expired
t = 0 timestamp is evicted during the rejected check, so a REJECTED
`check_order` does not leave the order-timestamp window unchanged. -/
theorem risk_reject_frame_cex :
    (checkOrder cfgLoss100 0 2 approvedOnceState scenarioOrder).1.approved
        = false
    ∧ approvedOnceState.order_timestamps = [0]
    ∧ (checkOrder cfgLoss100 0 2 approvedOnceState
        scenarioOrder).2.order_timestamps = [] := by
  norm_num [checkOrder, checkOrderFailures, checkFatFinger, checkPositionLimit,
    checkOrderRate, checkNotionalLimit, checkDailyLoss, checkDuplicate,
    assocFind, assocSet, appendMax, updateDailyPnl, RiskState.init,
    RiskConfig.base, cfgLoss100, scenarioOrder, approvedOnceState,
    List.dropWhile]

/-! ## Claim C3 -/

theorem sideInv_updateUnrealized (p : SymbolPosition) (x : ℚ) :
    ((p.updateUnrealized x).long_qty = max (p.updateUnrealized x).net_qty 0
      ∧ (p.updateUnrealized x).short_qty
          = max (-(p.updateUnrealized x).net_qty) 0)
    ↔ (p.long_qty = max p.net_qty 0 ∧ p.short_qty = max (-p.net_qty) 0) := by
  unfold SymbolPosition.updateUnrealized
  split_ifs <;> simp

/-- One `apply_fill` preserves the one-sidedness of a position: the long
leg is the positive part of the net and the short leg the negative
part. -/
theorem applyFill_sideInv (p : SymbolPosition) (f : PTFill)
    (hq : 0 ≤ f.fill_qty)
    (hl : p.long_qty = max p.net_qty 0)
    (hs : p.short_qty = max (-p.net_qty) 0) :
    (p.applyFill f).long_qty = max (p.applyFill f).net_qty 0
    ∧ (p.applyFill f).short_qty = max (-(p.applyFill f).net_qty) 0 := by
  obtain ⟨side, price, qty⟩ := f
  unfold SymbolPosition.applyFill
  rw [sideInv_updateUnrealized]
  cases side <;> simp only at * <;> split_ifs <;> constructor <;>
    simp_all [abs_eq_max_neg] <;> omega

theorem foldl_sideInv (fills : List PTFill) :
    ∀ p : SymbolPosition, (∀ f ∈ fills, 0 ≤ f.fill_qty) →
      p.long_qty = max p.net_qty 0 → p.short_qty = max (-p.net_qty) 0 →
      (fills.foldl SymbolPosition.applyFill p).long_qty
          = max (fills.foldl SymbolPosition.applyFill p).net_qty 0
        ∧ (fills.foldl SymbolPosition.applyFill p).short_qty
          = max (-(fills.foldl SymbolPosition.applyFill p).net_qty) 0 := by
  induction fills with
  | nil => exact fun p _ hl hs => ⟨hl, hs⟩
  | cons f t ih =>
      intro p hf hl hs
      have step := applyFill_sideInv p f (hf f (by simp)) hl hs
      exact ih (p.applyFill f) (fun g hg => hf g (by simp [hg])) step.1 step.2

/-- C3: after any sequence of fills with nonnegative quantities, the
tracked position satisfies `net_qty = long_qty − short_qty` and
`long_qty · short_qty = 0`. -/
theorem position_onesided_invariant (fills : List PTFill)
    (h : ∀ f ∈ fills, 0 ≤ f.fill_qty) :
    (SymbolPosition.applyFills fills).net_qty
        = (SymbolPosition.applyFills fills).long_qty
          - (SymbolPosition.applyFills fills).short_qty
    ∧ (SymbolPosition.applyFills fills).long_qty
        * (SymbolPosition.applyFills fills).short_qty = 0 := by
  obtain ⟨hl, hs⟩ := foldl_sideInv fills SymbolPosition.init h
    (by simp [SymbolPosition.init]) (by simp [SymbolPosition.init])
  rw [SymbolPosition.applyFills] at *
  refine ⟨by omega, ?_⟩
  rcases le_total (fills.foldl SymbolPosition.applyFill SymbolPosition.init).net_qty 0
    with h0 | h0
  · rw [hl, max_eq_right h0, zero_mul]
  · rw [hs, max_eq_right (by omega), mul_zero]

/-- Witness for C3 at a two-fill sequence that opens a long and flips it
short. -/
theorem position_onesided_invariant_witness :
    (∀ f ∈ [(⟨Side.BUY, 10, 5⟩ : PTFill), ⟨Side.SELL, 12, 8⟩],
      0 ≤ f.fill_qty)
    ∧ ((SymbolPosition.applyFills
          [⟨Side.BUY, 10, 5⟩, ⟨Side.SELL, 12, 8⟩]).net_qty
        = (SymbolPosition.applyFills
            [⟨Side.BUY, 10, 5⟩, ⟨Side.SELL, 12, 8⟩]).long_qty
          - (SymbolPosition.applyFills
              [⟨Side.BUY, 10, 5⟩, ⟨Side.SELL, 12, 8⟩]).short_qty
      ∧ (SymbolPosition.applyFills
          [⟨Side.BUY, 10, 5⟩, ⟨Side.SELL, 12, 8⟩]).long_qty
        * (SymbolPosition.applyFills
            [⟨Side.BUY, 10, 5⟩, ⟨Side.SELL, 12, 8⟩]).short_qty = 0) :=
  ⟨by decide, position_onesided_invariant _ (by decide)⟩

/-! ## Claim C6 -/

theorem foldl_oms_quantity :
    ∀ (fills : List OmsFill) (e : OmsEntry),
      (fills.foldl OmsEntry.applyFill e).order.quantity = e.order.quantity := by
  intro fills
  induction fills with
  | nil => intro e; rfl
  | cons f t ih =>
      intro e
      rw [List.foldl_cons, ih]
      unfold OmsEntry.applyFill OmsOrder.updateStatus
      split <;> rfl

theorem foldl_oms_filled :
    ∀ (fills : List OmsFill) (e : OmsEntry),
      (fills.foldl OmsEntry.applyFill e).order.filled_qty
        = e.order.filled_qty + (fills.map OmsFill.fill_qty).sum := by
  intro fills
  induction fills with
  | nil => intro e; simp
  | cons f t ih =>
      intro e
      rw [List.foldl_cons, ih]
      have : (e.applyFill f).order.filled_qty
          = e.order.filled_qty + f.fill_qty := by
        unfold OmsEntry.applyFill OmsOrder.updateStatus
        split <;> rfl
      rw [this]
      simp [add_assoc]

theorem foldl_oms_remaining :
    ∀ (fills : List OmsFill) (e : OmsEntry),
      e.order.remaining_qty = max 0 (e.order.quantity - e.order.filled_qty) →
      (fills.foldl OmsEntry.applyFill e).order.remaining_qty
        = max 0 ((fills.foldl OmsEntry.applyFill e).order.quantity
            - (fills.foldl OmsEntry.applyFill e).order.filled_qty) := by
  intro fills
  induction fills with
  | nil => intro e h; exact h
  | cons f t ih =>
      intro e _
      rw [List.foldl_cons]
      refine ih (e.applyFill f) ?_
      unfold OmsEntry.applyFill OmsOrder.updateStatus
      split <;> rfl

/-- C6: for an order of quantity q, after any fill sequence whose
cumulative quantity stays within q, `filled_qty + remaining_qty =
quantity`; and an order moved to REJECTED with no fills keeps
`remaining_qty = quantity`. -/
theorem oms_filled_plus_remaining (q : ℤ) (fills : List OmsFill)
    (hq : 0 ≤ q) (hsum : (fills.map OmsFill.fill_qty).sum ≤ q) :
    ((OmsEntry.applyFills q fills).order.filled_qty
        + (OmsEntry.applyFills q fills).order.remaining_qty
      = (OmsEntry.applyFills q fills).order.quantity)
    ∧ (OmsEntry.applyFills q fills).order.quantity = q
    ∧ ((OmsOrder.create q).updateStatus OrderStatus.REJECTED).remaining_qty = q
    ∧ ((OmsOrder.create q).updateStatus OrderStatus.REJECTED).status
        = OrderStatus.REJECTED := by
  have hquant := foldl_oms_quantity fills (OmsEntry.create q)
  have hfill := foldl_oms_filled fills (OmsEntry.create q)
  have hrem := foldl_oms_remaining fills (OmsEntry.create q)
    (by simp [OmsEntry.create, OmsOrder.create, max_eq_right hq])
  rw [OmsEntry.applyFills]
  have hq0 : (OmsEntry.create q).order.quantity = q := rfl
  have hf0 : (OmsEntry.create q).order.filled_qty = 0 := rfl
  rw [hq0] at hquant
  rw [hf0, zero_add] at hfill
  refine ⟨?_, hquant, rfl, rfl⟩
  rw [hrem, hquant, hfill]
  omega

/-! ## Claim C7 -/

theorem simFillOf_qty (v : VenueFees) (t : OrderType) (p : ℚ) (step : FillStep)
    (remaining fq : ℤ) : (simFillOf v t p step remaining fq).fill_qty = fq := rfl

theorem simFillOf_final (v : VenueFees) (t : OrderType) (p : ℚ) (step : FillStep)
    (remaining fq : ℤ) :
    (simFillOf v t p step remaining fq).is_final = decide (remaining - fq = 0) := rfl

theorem simQty_le (step : FillStep) (remaining : ℤ) :
    simQty step remaining ≤ remaining := min_le_right _ _

theorem one_le_simQty (step : FillStep) {remaining : ℤ} (h : 1 ≤ remaining) :
    1 ≤ simQty step remaining := le_min (le_max_left _ _) h

theorem simulateLoop_nonpos (v : VenueFees) (t : OrderType) (p : ℚ)
    (oracle : List FillStep) (remaining : ℤ) (h : remaining ≤ 0) :
    simulateLoop v t p oracle remaining = [] := by
  cases oracle with
  | nil => rfl
  | cons s rest => simp [simulateLoop, h]

theorem simulateLoop_cons (v : VenueFees) (t : OrderType) (p : ℚ)
    (step : FillStep) (rest : List FillStep) (remaining : ℤ)
    (h : ¬ remaining ≤ 0) :
    simulateLoop v t p (step :: rest) remaining =
      if 0 < remaining - simQty step remaining ∧ step.stop then
        [simFillOf v t p step remaining (simQty step remaining)]
      else
        simFillOf v t p step remaining (simQty step remaining)
          :: simulateLoop v t p rest (remaining - simQty step remaining) := by
  simp [simulateLoop, h]

theorem totalQty_cons (f : SimFill) (l : List SimFill) :
    SimFill.totalQty (f :: l) = f.fill_qty + SimFill.totalQty l := by
  simp [SimFill.totalQty]

/-- The fill loop's fills: cumulative quantity bounded by the remaining
quantity it starts from; only the last fill can be final, and the last
fill is final exactly when the cumulative quantity reaches the start
quantity; a positive start and a nonempty oracle produce at least one
fill. -/
theorem simulateLoop_spec (v : VenueFees) (t : OrderType) (p : ℚ) :
    ∀ (oracle : List FillStep) (remaining : ℤ), 0 ≤ remaining →
      SimFill.totalQty (simulateLoop v t p oracle remaining) ≤ remaining
      ∧ (∀ f ∈ (simulateLoop v t p oracle remaining).dropLast, f.is_final = false)
      ∧ (∀ f, (simulateLoop v t p oracle remaining).getLast? = some f →
          (f.is_final = true ↔
            SimFill.totalQty (simulateLoop v t p oracle remaining) = remaining))
      ∧ (0 < remaining → oracle ≠ [] → simulateLoop v t p oracle remaining ≠ []) := by
  intro oracle
  induction oracle with
  | nil =>
      intro remaining h0
      refine ⟨by simpa [simulateLoop, SimFill.totalQty] using h0,
        by simp [simulateLoop], by simp [simulateLoop], ?_⟩
      intro _ hne; exact absurd rfl hne
  | cons step rest ih =>
      intro remaining h0
      by_cases hr : remaining ≤ 0
      · rw [simulateLoop_nonpos v t p _ remaining hr]
        refine ⟨by simpa [SimFill.totalQty] using h0, by simp, by simp, ?_⟩
        intro hpos _; omega
      · have hpos : 0 < remaining := by omega
        rw [simulateLoop_cons v t p step rest remaining hr]
        set fq := simQty step remaining with hfqdef
        have hfq1 : 1 ≤ fq := one_le_simQty step hpos
        have hfqr : fq ≤ remaining := simQty_le step remaining
        by_cases hstop : 0 < remaining - fq ∧ step.stop
        · rw [if_pos hstop]
          refine ⟨?_, by simp, ?_, by simp⟩
          · rw [totalQty_cons, simFillOf_qty]
            simp [SimFill.totalQty]
            omega
          · intro f hf
            simp only [List.getLast?_singleton, Option.some.injEq] at hf
            subst hf
            rw [simFillOf_final, totalQty_cons, simFillOf_qty]
            simp [SimFill.totalQty]
            omega
        · rw [if_neg hstop]
          obtain ⟨iha, ihb, ihc, ihd⟩ := ih (remaining - fq) (by omega)
          refine ⟨?_, ?_, ?_, by simp⟩
          · rw [totalQty_cons, simFillOf_qty]; omega
          · intro f hf
            rcases hrest : simulateLoop v t p rest (remaining - fq) with _ | ⟨b, l⟩
            · rw [hrest] at hf; simp at hf
            · rw [hrest] at hf ihb
              rw [List.dropLast_cons_of_ne_nil (by simp)] at hf
              rcases List.mem_cons.mp hf with hf | hf
              · subst hf
                have hne : remaining - fq ≠ 0 := by
                  intro h
                  rw [h, simulateLoop_nonpos v t p rest 0 le_rfl] at hrest
                  exact List.noConfusion hrest
                rw [simFillOf_final]
                simp [hne]
              · exact ihb f hf
          · intro f hf
            rcases hrest : simulateLoop v t p rest (remaining - fq) with _ | ⟨b, l⟩
            · rw [hrest] at hf
              simp only [List.getLast?_singleton, Option.some.injEq] at hf
              subst hf
              rw [simFillOf_final, totalQty_cons, simFillOf_qty]
              simp [SimFill.totalQty]
              omega
            · rw [hrest] at hf ihc iha
              rw [List.getLast?_cons_cons] at hf
              have hiff := ihc f hf
              rw [totalQty_cons, simFillOf_qty]
              constructor
              · intro hfin
                have := hiff.mp hfin
                omega
              · intro hsum
                exact hiff.mpr (by omega)

/-- C7 counterexample: an ACKED LIMIT (non-IOC) order of quantity 10
whose first loop round draws fill ratio 1/2 and then hits the 30%
early-stop branch yields one non-final fill of 5 < 10 shares: the
shortfall is not restricted to IOC orders. -/
theorem simulate_fills_shortfall_cex :
    SimFill.totalQty (simulateFills ⟨-(8 : ℚ)/2500, 3/1000⟩ OrderType.LIMIT
        OrderStatus.ACKED 100 10 [⟨1/2, 0, true⟩]) = 5
    ∧ (5 : ℤ) ≠ 10
    ∧ OrderType.LIMIT ≠ OrderType.IOC
    ∧ ∀ f ∈ simulateFills ⟨-(8 : ℚ)/2500, 3/1000⟩ OrderType.LIMIT
        OrderStatus.ACKED 100 10 [⟨1/2, 0, true⟩], f.is_final = false := by
  norm_num [simulateFills, simulateLoop, simQty, simFillOf, intTrunc,
    SimFill.totalQty, min_def, max_def]
  all_goals decide

/-- C7 (amended): for every ACKED order of nonnegative quantity and any
draw oracle, the cumulative fill quantity is at most order.quantity,
only the last fill can be final, the last fill is final exactly when
the cumulative quantity reaches order.quantity, and a positive quantity
yields at least one fill; the cumulative quantity may fall short of
order.quantity for every order type (the ≈30% early stop), not only
IOC. -/
theorem simulate_fills_amended (venue : VenueFees) (otype : OrderType)
    (price : ℚ) (quantity : ℤ) (oracle : List FillStep)
    (hq : 0 ≤ quantity) :
    SimFill.totalQty (simulateFills venue otype OrderStatus.ACKED price
        quantity oracle) ≤ quantity
    ∧ (∀ f ∈ (simulateFills venue otype OrderStatus.ACKED price
        quantity oracle).dropLast, f.is_final = false)
    ∧ (∀ f, (simulateFills venue otype OrderStatus.ACKED price
          quantity oracle).getLast? = some f →
        (f.is_final = true ↔
          SimFill.totalQty (simulateFills venue otype OrderStatus.ACKED price
            quantity oracle) = quantity))
    ∧ (0 < quantity → oracle ≠ [] →
        simulateFills venue otype OrderStatus.ACKED price quantity oracle ≠ []) := by
  have h := simulateLoop_spec venue otype price oracle quantity hq
  simpa [simulateFills] using h

/-- Witness for C7's amended theorem: a LIMIT order of quantity 10 whose
single draw fills it whole. -/
theorem simulate_fills_amended_witness :
    (0 : ℤ) ≤ 10
    ∧ SimFill.totalQty (simulateFills ⟨-(8 : ℚ)/2500, 3/1000⟩ OrderType.LIMIT
        OrderStatus.ACKED 100 10 [⟨1, 0, false⟩]) ≤ 10 :=
  ⟨by norm_num,
   (simulate_fills_amended ⟨-(8 : ℚ)/2500, 3/1000⟩ OrderType.LIMIT 100 10
      [⟨1, 0, false⟩] (by norm_num)).1⟩

/-- Witness for C6 at a two-fill sequence filling 4 then 6 of 10. -/
theorem oms_filled_plus_remaining_witness :
    (0 ≤ (10 : ℤ)
      ∧ (([⟨(19 : ℚ)/2, 4, false⟩, ⟨10, 6, true⟩] : List OmsFill).map
          OmsFill.fill_qty).sum ≤ 10)
    ∧ ((OmsEntry.applyFills 10
          [⟨(19 : ℚ)/2, 4, false⟩, ⟨10, 6, true⟩]).order.filled_qty
        + (OmsEntry.applyFills 10
            [⟨(19 : ℚ)/2, 4, false⟩, ⟨10, 6, true⟩]).order.remaining_qty
      = (OmsEntry.applyFills 10
          [⟨(19 : ℚ)/2, 4, false⟩, ⟨10, 6, true⟩]).order.quantity) :=
  ⟨⟨by decide, by decide⟩,
   (oms_filled_plus_remaining 10 [⟨(19 : ℚ)/2, 4, false⟩, ⟨10, 6, true⟩]
      (by decide) (by decide)).1⟩

/-! ## Risk-gate lemmas for claims C2, C8, C10 -/

/-- An active breaker rejects any order immediately, with reason
`CIRCUIT_BREAKER_ACTIVE` and the state untouched. -/
theorem checkOrder_breaker_active (cfg : RiskConfig) (posQty : ℤ) (now : ℚ)
    (s : RiskState) (o : RiskOrder) (hb : s.circuit_breaker_active = true) :
    checkOrder cfg posQty now s o
      = ({ approved := false, reason := "CIRCUIT_BREAKER_ACTIVE" }, s) := by
  simp [checkOrder, hb]

theorem checkDailyLoss_fail (cfg : RiskConfig) (pnl : ℚ) (b : Bool)
    (hmax : 0 ≤ cfg.max_daily_loss) (hp : pnl < -cfg.max_daily_loss) :
    checkDailyLoss cfg pnl b = (false, true) := by
  have hneg : pnl < 0 := by linarith
  have habs : cfg.max_daily_loss < |pnl| := by
    rw [abs_of_neg hneg]; linarith
  simp [checkDailyLoss, habs, hneg]

/-- With the breaker not yet latched and the daily P&L strictly below
the negative loss cap, every `check_order` call is rejected and latches
the breaker. -/
theorem checkOrder_daily_loss_reject (cfg : RiskConfig) (posQty : ℤ)
    (now : ℚ) (s : RiskState) (o : RiskOrder)
    (hb : s.circuit_breaker_active = false)
    (hmax : 0 ≤ cfg.max_daily_loss)
    (hp : s.daily_pnl < -cfg.max_daily_loss) :
    (checkOrder cfg posQty now s o).1.approved = false
    ∧ (checkOrder cfg posQty now s o).2.circuit_breaker_active = true := by
  have hdl := checkDailyLoss_fail cfg s.daily_pnl false hmax hp
  have hmem : "DAILY_LOSS_LIMIT" ∈ checkOrderFailures cfg posQty now s o := by
    unfold checkOrderFailures
    rw [hb, hdl]
    simp
  have hne : (checkOrderFailures cfg posQty now s o).isEmpty = false := by
    rcases h : checkOrderFailures cfg posQty now s o with _ | ⟨a, l⟩
    · rw [h] at hmem; exact absurd hmem (List.not_mem_nil _)
    · rfl
  constructor <;> simp [checkOrder, hb, hne, hdl]

/-- A daily P&L at or above the negative cap never latches the breaker,
whether the order is approved or not. -/
theorem checkOrder_no_trip (cfg : RiskConfig) (posQty : ℤ) (now : ℚ)
    (s : RiskState) (o : RiskOrder)
    (hb : s.circuit_breaker_active = false)
    (hge : -cfg.max_daily_loss ≤ s.daily_pnl) :
    (checkOrder cfg posQty now s o).2.circuit_breaker_active = false := by
  have hdl : (checkDailyLoss cfg s.daily_pnl false).2 = false := by
    unfold checkDailyLoss
    split_ifs with h1 h2
    · rw [abs_of_neg h2] at h1; linarith
    · rfl
    · rfl
  simp only [checkOrder, hb]
  split_ifs <;> simp [hdl, hb]

/-- No operation other than `reset_daily` clears a latched breaker. -/
theorem applyRiskOps_breaker_mono (cfg : RiskConfig) :
    ∀ (ops : List RiskOp) (s : RiskState),
      s.circuit_breaker_active = true →
      (applyRiskOps cfg s ops).circuit_breaker_active = true := by
  intro ops
  induction ops with
  | nil => intro s hb; exact hb
  | cons op t ih =>
      intro s hb
      have hstep : (applyRiskOp cfg s op).circuit_breaker_active = true := by
        cases op with
        | check posQty now o =>
            rw [applyRiskOp, checkOrder_breaker_active cfg posQty now s o hb]
            exact hb
        | updatePnl d => exact hb
      exact ih (applyRiskOp cfg s op) hstep

/-- A rejected `check_order` call leaves the duplicate set unchanged and
only evicts expired entries from the two windows (each stays a suffix of
what it was). -/
theorem checkOrder_reject_frame (cfg : RiskConfig) (posQty : ℤ) (now : ℚ)
    (s : RiskState) (o : RiskOrder)
    (h : (checkOrder cfg posQty now s o).1.approved = false) :
    (checkOrder cfg posQty now s o).2.recent_order_ids = s.recent_order_ids
    ∧ (checkOrder cfg posQty now s o).2.order_timestamps <:+ s.order_timestamps
    ∧ (checkOrder cfg posQty now s o).2.notional_window <:+ s.notional_window := by
  by_cases hb : s.circuit_breaker_active = true
  · rw [checkOrder_breaker_active cfg posQty now s o hb]
    exact ⟨rfl, List.suffix_refl _, List.suffix_refl _⟩
  · rw [Bool.not_eq_true] at hb
    have hnw : (checkNotionalLimit cfg now s.notional_window o).2
        <:+ s.notional_window := by
      unfold checkNotionalLimit
      dsimp only
      split_ifs
      · exact List.suffix_refl _
      · exact List.dropWhile_suffix _
    rcases hEmp : (checkOrderFailures cfg posQty now s o).isEmpty with _ | _
    · constructor
      · simp [checkOrder, hb, hEmp]
      · constructor
        · simp only [checkOrder, hb, hEmp]
          simp only [Bool.false_eq_true, if_false, if_true]
          exact List.dropWhile_suffix _
        · simp only [checkOrder, hb, hEmp]
          simp only [Bool.false_eq_true, if_false, if_true]
          exact hnw
    · exfalso
      have : (checkOrder cfg posQty now s o).1.approved = true := by
        simp [checkOrder, hb, hEmp]
      rw [h] at this
      exact Bool.false_ne_true this

/-! ## Claim C2: amended scenario -/

/-- C2 (amended): with max_daily_loss = 100, after `update_daily_pnl(-101)`
every next `check_order` is REJECTED and latches the breaker, the first
such rejection carrying reason `DAILY_LOSS_LIMIT` (not
`CIRCUIT_BREAKER_ACTIVE`); every call on a latched engine is rejected
with exactly `CIRCUIT_BREAKER_ACTIVE` and an untouched state; after
`reset_daily` the breaker is clear and the same order is approved
again. -/
theorem circuit_breaker_scenario_amended :
    (∀ (o : RiskOrder) (posQty : ℤ) (now : ℚ),
      (checkOrder cfgLoss100 posQty now lossState o).1.approved = false
      ∧ (checkOrder cfgLoss100 posQty now lossState o).2.circuit_breaker_active
          = true)
    ∧ (checkOrder cfgLoss100 0 0 lossState scenarioOrder).1.reason
        = "DAILY_LOSS_LIMIT"
    ∧ (∀ (cfg : RiskConfig) (s : RiskState) (o : RiskOrder) (posQty : ℤ) (now : ℚ),
        s.circuit_breaker_active = true →
        checkOrder cfg posQty now s o
          = ({ approved := false, reason := "CIRCUIT_BREAKER_ACTIVE" }, s))
    ∧ ((resetDaily (checkOrder cfgLoss100 0 0 lossState
          scenarioOrder).2).circuit_breaker_active = false
      ∧ (checkOrder cfgLoss100 0 1
          (resetDaily (checkOrder cfgLoss100 0 0 lossState scenarioOrder).2)
          scenarioOrder).1.approved = true) := by
  have hb : lossState.circuit_breaker_active = false := rfl
  have hmax : (0 : ℚ) ≤ cfgLoss100.max_daily_loss := by
    norm_num [cfgLoss100, RiskConfig.base]
  have hp : lossState.daily_pnl < -cfgLoss100.max_daily_loss := by
    norm_num [lossState, updateDailyPnl, RiskState.init, cfgLoss100,
      RiskConfig.base]
  refine ⟨?_, ?_, ?_, ?_, ?_⟩
  · intro o posQty now
    exact checkOrder_daily_loss_reject cfgLoss100 posQty now lossState o hb hmax hp
  · norm_num [checkOrder, checkOrderFailures, checkFatFinger, checkPositionLimit,
      checkOrderRate, checkNotionalLimit, checkDailyLoss, checkDuplicate,
      assocFind, assocSet, appendMax, updateDailyPnl, RiskState.init,
      RiskConfig.base, cfgLoss100, scenarioOrder, lossState, List.dropWhile]
    all_goals decide
  · intro cfg s o posQty now hb'
    exact checkOrder_breaker_active cfg posQty now s o hb'
  · norm_num [checkOrder, checkOrderFailures, checkFatFinger, checkPositionLimit,
      checkOrderRate, checkNotionalLimit, checkDailyLoss, checkDuplicate,
      assocFind, assocSet, appendMax, updateDailyPnl, resetDaily, RiskState.init,
      RiskConfig.base, cfgLoss100, scenarioOrder, lossState, List.dropWhile]
  · norm_num [checkOrder, checkOrderFailures, checkFatFinger, checkPositionLimit,
      checkOrderRate, checkNotionalLimit, checkDailyLoss, checkDuplicate,
      assocFind, assocSet, appendMax, updateDailyPnl, resetDaily, RiskState.init,
      RiskConfig.base, cfgLoss100, scenarioOrder, lossState, List.dropWhile]

/-- Witness for C2's latched-breaker conjunct at a concrete latched
state. -/
theorem circuit_breaker_scenario_witness :
    (⟨[], [], [], 0, true, []⟩ : RiskState).circuit_breaker_active = true
    ∧ checkOrder cfgLoss100 0 0 (⟨[], [], [], 0, true, []⟩ : RiskState)
        scenarioOrder
      = ({ approved := false, reason := "CIRCUIT_BREAKER_ACTIVE" },
         (⟨[], [], [], 0, true, []⟩ : RiskState)) :=
  ⟨rfl, circuit_breaker_scenario_amended.2.2.1 cfgLoss100
    ⟨[], [], [], 0, true, []⟩ scenarioOrder 0 0 rfl⟩

/-! ## Claim C8: amended latch -/

/-- C8 (amended): the breaker latches on any check observing daily_pnl
strictly below −max_daily_loss (not at the boundary), stays latched
across every subsequent check_order / update_daily_pnl sequence,
is cleared by reset_daily alone, and never latches while daily_pnl is
at or above −max_daily_loss. -/
theorem breaker_latch_amended :
    (∀ (cfg : RiskConfig) (posQty : ℤ) (now : ℚ) (s : RiskState) (o : RiskOrder),
        0 ≤ cfg.max_daily_loss → s.daily_pnl < -cfg.max_daily_loss →
        (checkOrder cfg posQty now s o).2.circuit_breaker_active = true)
    ∧ (∀ (cfg : RiskConfig) (ops : List RiskOp) (s : RiskState),
        s.circuit_breaker_active = true →
        (applyRiskOps cfg s ops).circuit_breaker_active = true)
    ∧ (∀ s : RiskState, (resetDaily s).circuit_breaker_active = false)
    ∧ (∀ (cfg : RiskConfig) (posQty : ℤ) (now : ℚ) (s : RiskState) (o : RiskOrder),
        s.circuit_breaker_active = false → -cfg.max_daily_loss ≤ s.daily_pnl →
        (checkOrder cfg posQty now s o).2.circuit_breaker_active = false) := by
  refine ⟨?_, ?_, fun s => rfl, ?_⟩
  · intro cfg posQty now s o hmax hp
    rcases hB : s.circuit_breaker_active with _ | _
    · exact (checkOrder_daily_loss_reject cfg posQty now s o hB hmax hp).2
    · rw [checkOrder_breaker_active cfg posQty now s o hB]; exact hB
  · intro cfg ops s hb
    exact applyRiskOps_breaker_mono cfg ops s hb
  · intro cfg posQty now s o hb hge
    exact checkOrder_no_trip cfg posQty now s o hb hge

/-- Witness for C8's amended theorem with the −101 scenario state. -/
theorem breaker_latch_amended_witness :
    ((0 : ℚ) ≤ cfgLoss100.max_daily_loss
      ∧ lossState.daily_pnl < -cfgLoss100.max_daily_loss)
    ∧ (checkOrder cfgLoss100 0 0 lossState
        scenarioOrder).2.circuit_breaker_active = true :=
  ⟨⟨by norm_num [cfgLoss100, RiskConfig.base],
    by norm_num [lossState, updateDailyPnl, RiskState.init, cfgLoss100,
      RiskConfig.base]⟩,
   breaker_latch_amended.1 cfgLoss100 0 0 lossState scenarioOrder
     (by norm_num [cfgLoss100, RiskConfig.base])
     (by norm_num [lossState, updateDailyPnl, RiskState.init, cfgLoss100,
       RiskConfig.base])⟩

/-! ## Claim C10: amended frame property -/

/-- C10 (amended): a REJECTED `check_order` call never adds to the
rate-limit window, the rolling-notional window, or the duplicate set:
the duplicate set is returned unchanged and each window is a suffix of
its previous value (only entries expired past the 1 s cutoff are
evicted), so a rejected order consumes no rate or notional budget and
cannot make a later order with the same id fail the duplicate check. -/
theorem risk_reject_frame_amended :
    ∀ (cfg : RiskConfig) (posQty : ℤ) (now : ℚ) (s : RiskState) (o : RiskOrder),
      (checkOrder cfg posQty now s o).1.approved = false →
      (checkOrder cfg posQty now s o).2.recent_order_ids = s.recent_order_ids
      ∧ (checkOrder cfg posQty now s o).2.order_timestamps <:+ s.order_timestamps
      ∧ (checkOrder cfg posQty now s o).2.notional_window <:+ s.notional_window :=
  checkOrder_reject_frame

/-- A latched-breaker state with nonempty windows, for the C10 witness. -/
def breakerOnState : RiskState := ⟨[3], [(3, 5)], ["X"], 0, true, []⟩

/-- Witness for C10's amended theorem at a concrete rejected call. -/
theorem risk_reject_frame_amended_witness :
    (checkOrder cfgLoss100 0 0 breakerOnState scenarioOrder).1.approved = false
    ∧ ((checkOrder cfgLoss100 0 0 breakerOnState scenarioOrder).2.recent_order_ids
          = breakerOnState.recent_order_ids
      ∧ (checkOrder cfgLoss100 0 0 breakerOnState
          scenarioOrder).2.order_timestamps <:+ breakerOnState.order_timestamps
      ∧ (checkOrder cfgLoss100 0 0 breakerOnState
          scenarioOrder).2.notional_window <:+ breakerOnState.notional_window) :=
  ⟨rfl, risk_reject_frame_amended cfgLoss100 0 0 breakerOnState scenarioOrder rfl⟩

/-! ## Claim C9 -/

theorem roundHalfEven_intCast (n : ℤ) : roundHalfEven (n : ℚ) = n := by
  unfold roundHalfEven
  rw [Int.floor_intCast]
  norm_num

/-- Adding one tick to an already 2-dp-rounded price is exact under a
second rounding. -/
theorem pyRound_two_add_tick (x : ℚ) :
    pyRound 2 (pyRound 2 x + 1/100) = pyRound 2 x + 1/100 := by
  unfold pyRound
  have h : ((roundHalfEven (x * 10 ^ 2) : ℚ) / 10 ^ 2 + 1 / 100) * 10 ^ 2
      = ((roundHalfEven (x * 10 ^ 2) + 1 : ℤ) : ℚ) := by
    push_cast
    ring
  rw [h, roundHalfEven_intCast]
  push_cast
  ring

/-- The repaired ask is always strictly above the bid. -/
theorem mmAsk_gt_bid (cfg : MMConfig) (mid spreadBps : ℚ) (netPos : ℤ) :
    mmBidPrice cfg mid spreadBps netPos
      < mmAskPrice cfg mid spreadBps netPos := by
  unfold mmAskPrice
  dsimp only
  split_ifs with h
  · unfold mmBidPrice
    rw [pyRound_two_add_tick]
    norm_num
  · exact lt_of_not_ge h

/-- C9: with a positive mid, `generate_quotes` emits exactly the BUY-at-bid
and SELL-at-ask signal pair, the ask is strictly above the bid, and
whenever the skewed raw ask would not clear the bid the ask is the bid
widened by one tick. -/
theorem mm_two_sided_quotes (cfg : MMConfig) (mid spreadBps : ℚ) (netPos : ℤ)
    (hmid : 0 < mid) :
    generateQuotes cfg mid spreadBps netPos
      = [ { side := Side.BUY
            target_price := mmBidPrice cfg mid spreadBps netPos
            target_qty := mmQuoteQty cfg netPos
            signal_type := "market_make_bid" }
        , { side := Side.SELL
            target_price := mmAskPrice cfg mid spreadBps netPos
            target_qty := mmQuoteQty cfg netPos
            signal_type := "market_make_ask" } ]
    ∧ (generateQuotes cfg mid spreadBps netPos).length = 2
    ∧ mmBidPrice cfg mid spreadBps netPos < mmAskPrice cfg mid spreadBps netPos
    ∧ (mmAskPriceRaw cfg mid spreadBps netPos
          ≤ mmBidPrice cfg mid spreadBps netPos →
        mmAskPrice cfg mid spreadBps netPos
          = mmBidPrice cfg mid spreadBps netPos + 1/100) := by
  have hn : ¬ mid ≤ 0 := not_le.mpr hmid
  refine ⟨by simp [generateQuotes, hn], by simp [generateQuotes, hn],
    mmAsk_gt_bid cfg mid spreadBps netPos, ?_⟩
  intro h
  unfold mmAskPrice
  dsimp only
  rw [if_pos h]
  unfold mmBidPrice
  rw [pyRound_two_add_tick]

/-- Witness for C9 at mid 100, book spread 2 bps, flat inventory. -/
theorem mm_two_sided_quotes_witness :
    (0 : ℚ) < 100
    ∧ mmBidPrice MMConfig.base 100 2 0 < mmAskPrice MMConfig.base 100 2 0 :=
  ⟨by norm_num, (mm_two_sided_quotes MMConfig.base 100 2 0 (by norm_num)).2.2.1⟩

end HFT
